import Mathlib

/-!
Shallow embedding of the token-monitor filter-and-ingest pipeline.

Sources embedded:
* `src/config/filter.js` — `SolanaTokenFilter` (holder distribution, the
  ordered short-circuit filter chain).
* `src/server.js` — `SolanaTokenMonitor` (`checkSolanaRugScore`,
  `checkExistingToken`, `saveSolanaToken`, the per-pair body of
  `processSolanaTokens`).
* `src/unnamed/part_002` (`config/api.js`) — `RateLimiter.acquire`,
  `retryRequest`.

Numbers are embedded as `ℚ` (JS numbers; NaN/Infinity corner cases are not
modelled except where noted).  JS `null`/`undefined` fields are `Option`s.
JS coercion rules that matter for the claims are modelled explicitly:
`x || 0` via `optQ`, truthiness guards via `truthy`/`truthyStr`, and the
relational coercion `null → 0` (e.g. `x > null` is `x > 0`) via `.getD 0`
at each comparison site.  Human-readable `reason` strings are not modelled;
the failing stage is captured by the `filters` list, which in the source
always holds exactly the single failing stage.  Time is passed explicitly
(`now : ℚ`, epoch milliseconds) wherever the source reads `Date.now()` or
relies on `CURRENT_TIMESTAMP`.
-/

namespace TokenMonitor

/-- JS `x || 0` (also `parseFloat(x) || 0`): absent/`null` numeric becomes `0`. -/
def optQ (o : Option ℚ) : ℚ := o.getD 0

/-- JS truthiness of a nullable number used as a guard (`cfg.x && ...`):
`null` and `0` are falsy. -/
def truthy (o : Option ℚ) : Bool :=
  match o with
  | none => false
  | some x => x != 0

/-- JS truthiness of a nullable string (`rugData.freezeAuthority && ...`):
`null` and the empty string are falsy. -/
def truthyStr (o : Option String) : Bool :=
  match o with
  | none => false
  | some s => s != ""

/-- One entry of `holdersData.top`. -/
structure Holder where
  address : String
  balance : ℚ
deriving DecidableEq

/-- The `holders` object of a rug-check payload; every field may be absent. -/
structure HoldersData where
  top : Option (List Holder)
  total : Option ℚ
  count : Option ℚ
deriving DecidableEq

/-- A risk record (`rugData`) as consumed by `filterToken`.  `holders = none`
models an absent `holders` field; `some ⟨none, none, none⟩` models the empty
object `{}`. -/
structure RugData where
  score : Option ℚ
  risks : Option (List String)
  holders : Option HoldersData
  freezeAuthority : Option String
  mintAuthority : Option String
  updateAuthority : Option String
  isMutable : Bool
deriving DecidableEq

/-- Embeds `pair.baseToken` / `pair.quoteToken`. -/
structure TokenInfo where
  address : String
  name : String
  symbol : String
deriving DecidableEq

/-- Embeds `pair.volume` (`h24`/`h6`/`h1`/`m5`), each field optional. -/
structure Volume where
  h24 : Option ℚ
  h6 : Option ℚ
  h1 : Option ℚ
  m5 : Option ℚ
deriving DecidableEq

/-- Embeds `pair.priceChange`, each field optional. -/
structure PriceChange where
  h24 : Option ℚ
  h6 : Option ℚ
  h1 : Option ℚ
  m5 : Option ℚ
deriving DecidableEq

/-- Embeds `pair.liquidity`. -/
structure Liquidity where
  usd : Option ℚ
deriving DecidableEq

/-- A trading pair as delivered by the market-data feed.  `pairAddress = ""`
models a falsy pair address (the structural-validation stage).
`pairCreatedAt` is an epoch-millisecond timestamp. -/
structure Pair where
  pairAddress : String
  chainId : String
  dexId : String
  baseToken : TokenInfo
  quoteToken : TokenInfo
  priceUsd : Option ℚ
  priceNative : Option ℚ
  volume : Option Volume
  priceChange : Option PriceChange
  liquidity : Option Liquidity
  pairCreatedAt : Option ℚ
deriving DecidableEq

/-- The filter configuration object (`filterConfig` in `config/filter.js`).
A `none` models a `null` (or deleted) bound. -/
structure FilterConfig where
  minHolders : Option ℚ
  maxTopHolderPercentage : Option ℚ
  minVolume24h : Option ℚ
  maxVolume24h : Option ℚ
  minLiquidity : Option ℚ
  maxLiquidity : Option ℚ
  minNetTraders : Option ℚ
  maxTokenAgeHours : Option ℚ
  minTokenAgeMinutes : Option ℚ
  maxRugScore : Option ℚ
  blockedRiskTypes : List String
  maxPriceChange24h : Option ℚ
  minPriceChange24h : Option ℚ
  allowedDEXs : Option (List String)
  blockedDEXs : List String
  minMarketCapUSD : Option ℚ
  maxMarketCapUSD : Option ℚ
  minSOLLiquidity : Option ℚ
  maxSlippage : Option ℚ
deriving DecidableEq

/-- The default `filterConfig` literal of `config/filter.js`. -/
def defaultFilterConfig : FilterConfig where
  minHolders := some 10
  maxTopHolderPercentage := some 40
  minVolume24h := some 10
  maxVolume24h := none
  minLiquidity := some 100
  maxLiquidity := none
  minNetTraders := some 5
  maxTokenAgeHours := some 24
  minTokenAgeMinutes := some 3
  maxRugScore := some 6
  blockedRiskTypes := ["honeypot", "mint_function", "proxy_contract", "freeze_authority"]
  maxPriceChange24h := none
  minPriceChange24h := none
  allowedDEXs := some ["raydium", "orca", "jupiter"]
  blockedDEXs := []
  minMarketCapUSD := none
  maxMarketCapUSD := none
  minSOLLiquidity := some 5
  maxSlippage := some 5

/-- Character-list prefix test (for JS `String.prototype.includes`). -/
def charsLeading : List Char → List Char → Bool
  | [], _ => true
  | _ :: _, [] => false
  | a :: as, b :: bs => a == b && charsLeading as bs

/-- Character-list infix test: `sub` occurs contiguously in `s`. -/
def charsInside (sub : List Char) : List Char → Bool
  | [] => charsLeading sub []
  | c :: rest => charsLeading sub (c :: rest) || charsInside sub rest

/-- JS `s.includes(sub)`. -/
def strIncludes (s sub : String) : Bool := charsInside sub.toList s.toList

/-- Embeds `SolanaTokenFilter.isBurnAddress`: substring match against a fixed list. -/
def burnAddresses : List String :=
  ["11111111111111111111111111111111",
   "1nc1nerator11111111111111111111111111111111",
   "DeadBeefDeadBeefDeadBeefDeadBeefDeadBeef"]

def isBurnAddress (address : String) : Bool :=
  burnAddresses.any (fun burn => strIncludes address burn)

/-- Embeds `SolanaTokenFilter.isProgramAccount`: exact match against a fixed list. -/
def programPatterns : List String :=
  ["11111111111111111111111111111111",
   "TokenkegQfeZyiNwAJbNbGKPFXCWuBvf9Ss623VQ5DA",
   "ATokenGPvbdGVxr1b2hvZbsiqW5xWH25efTNsLJA8knL"]

def isProgramAccount (address : String) : Bool :=
  programPatterns.any (fun pattern => address == pattern)

/-- One entry of the `distribution` array built by
`calculateHolderDistribution`. -/
structure DistEntry where
  address : String
  balance : ℚ
  percentage : ℚ
  isBurn : Bool
  isProgram : Bool
deriving DecidableEq

/-- Return value of `calculateHolderDistribution`; the degraded branch omits
the `distribution` field (`none`). -/
structure HolderDistribution where
  count : ℚ
  topPercentage : ℚ
  distribution : Option (List DistEntry)
deriving DecidableEq

/-- Embeds `SolanaTokenFilter.calculateHolderDistribution`.  `holdersData` absent or
without a `top` field yields `{count: 0, topPercentage: 100}`.  JS `|| 1` on
`total` and `|| holders.length` on `count` treat `0` as absent. -/
def calculateHolderDistribution (holdersData : Option HoldersData) : HolderDistribution :=
  match holdersData with
  | none => ⟨0, 100, none⟩
  | some hd =>
    match hd.top with
    | none => ⟨0, 100, none⟩
    | some holders =>
      let totalSupply : ℚ :=
        match hd.total with
        | some t => if t == 0 then 1 else t
        | none => 1
      let topHolderPercentage : ℚ :=
        if holders.length > 0 then
          let realHolders := holders.filter
            (fun holder => !(isBurnAddress holder.address) && !(isProgramAccount holder.address))
          match realHolders with
          | [] => 0
          | h :: _ => h.balance / totalSupply * 100
        else 0
      let countVal : ℚ :=
        match hd.count with
        | some c => if c == 0 then (holders.length : ℚ) else c
        | none => (holders.length : ℚ)
      ⟨countVal, topHolderPercentage,
       some (holders.map (fun holder =>
         ⟨holder.address, holder.balance, holder.balance / totalSupply * 100,
          isBurnAddress holder.address, isProgramAccount holder.address⟩))⟩

/-- Embeds `pair.volume?.h24 || 0`. -/
def vol24 (pair : Pair) : ℚ := optQ (pair.volume.bind (fun v => v.h24))

/-- Embeds `pair.liquidity?.usd || 0`. -/
def liqUsd (pair : Pair) : ℚ := optQ (pair.liquidity.bind (fun l => l.usd))

/-- Embeds `pair.priceChange?.h24 || 0`. -/
def pc24 (pair : Pair) : ℚ := optQ (pair.priceChange.bind (fun p => p.h24))

/-- Embeds `SolanaTokenFilter.estimateMarketCap`: `liquidity * 20`. -/
def estimateMarketCap (pair : Pair) : ℚ := liqUsd pair * 20

/-- Embeds `SolanaTokenFilter.getSOLLiquidity`: `(liquidityUSD * 0.5) / solPrice`,
`0` when the SOL price is not positive. -/
def getSOLLiquidity (pair : Pair) : ℚ :=
  let solPrice := optQ pair.priceNative
  let liquidityUSD := liqUsd pair
  if solPrice ≤ 0 then 0 else liquidityUSD * (1 / 2) / solPrice

/-- Embeds `Math.floor(volume24h / 50)` — the estimated net-trader count. -/
def netTradersOf (pair : Pair) : ℤ := ⌊vol24 pair / 50⌋

/-- Embeds `now - (pair.pairCreatedAt || now)` in milliseconds: a missing or `0`
creation timestamp is replaced by `now` (age `0`). -/
def tokenAgeMs (now : ℚ) (pair : Pair) : ℚ :=
  now - (match pair.pairCreatedAt with
         | some t => if t == 0 then now else t
         | none => now)

def tokenAgeHours (now : ℚ) (pair : Pair) : ℚ := tokenAgeMs now pair / (1000 * 60 * 60)

def tokenAgeMinutes (now : ℚ) (pair : Pair) : ℚ := tokenAgeMs now pair / (1000 * 60)

/-! Stage conditions of `filterToken`, one definition per early-return test,
in source order.  Unguarded comparisons against a nullable bound use
`.getD 0`: the JS relational operators coerce `null` to `0`. -/

/-- Embeds `!pair.pairAddress` (a null pair itself is not modelled: the claims all
concern present pairs). -/
def validationFail (pair : Pair) : Bool := pair.pairAddress == ""

def chainFail (pair : Pair) : Bool := pair.chainId != "solana"

/-- Embeds `tokenAgeHours > this.config.maxTokenAgeHours` (unguarded: `null` → `0`). -/
def ageMaxFail (cfg : FilterConfig) (now : ℚ) (pair : Pair) : Bool :=
  tokenAgeHours now pair > cfg.maxTokenAgeHours.getD 0

/-- Embeds `tokenAgeMinutes < this.config.minTokenAgeMinutes` (unguarded). -/
def ageMinFail (cfg : FilterConfig) (now : ℚ) (pair : Pair) : Bool :=
  tokenAgeMinutes now pair < cfg.minTokenAgeMinutes.getD 0

def dexBlockedFail (cfg : FilterConfig) (pair : Pair) : Bool :=
  cfg.blockedDEXs.contains pair.dexId

/-- Embeds `this.config.allowedDEXs && !this.config.allowedDEXs.includes(...)`:
skipped when the allow-list is `null` (an empty list is truthy in JS and is
kept). -/
def dexAllowedFail (cfg : FilterConfig) (pair : Pair) : Bool :=
  match cfg.allowedDEXs with
  | none => false
  | some allowed => !(allowed.contains pair.dexId)

def volumeMinFail (cfg : FilterConfig) (pair : Pair) : Bool :=
  vol24 pair < cfg.minVolume24h.getD 0

/-- Embeds `this.config.maxVolume24h && volume24h > this.config.maxVolume24h`. -/
def volumeMaxFail (cfg : FilterConfig) (pair : Pair) : Bool :=
  truthy cfg.maxVolume24h && vol24 pair > cfg.maxVolume24h.getD 0

def liquidityMinFail (cfg : FilterConfig) (pair : Pair) : Bool :=
  liqUsd pair < cfg.minLiquidity.getD 0

def liquidityMaxFail (cfg : FilterConfig) (pair : Pair) : Bool :=
  truthy cfg.maxLiquidity && liqUsd pair > cfg.maxLiquidity.getD 0

def solLiquidityFail (cfg : FilterConfig) (pair : Pair) : Bool :=
  getSOLLiquidity pair < cfg.minSOLLiquidity.getD 0

def priceChangeMaxFail (cfg : FilterConfig) (pair : Pair) : Bool :=
  truthy cfg.maxPriceChange24h && pc24 pair > cfg.maxPriceChange24h.getD 0

def priceChangeMinFail (cfg : FilterConfig) (pair : Pair) : Bool :=
  truthy cfg.minPriceChange24h && pc24 pair < cfg.minPriceChange24h.getD 0

/-- Embeds `holderData.count < this.config.minHolders` (unguarded). -/
def holdersMinFail (cfg : FilterConfig) (rug : RugData) : Bool :=
  (calculateHolderDistribution rug.holders).count < cfg.minHolders.getD 0

/-- Embeds `holderData.topPercentage > this.config.maxTopHolderPercentage`
(unguarded: `null` → `0`). -/
def holderConcFail (cfg : FilterConfig) (rug : RugData) : Bool :=
  (calculateHolderDistribution rug.holders).topPercentage > cfg.maxTopHolderPercentage.getD 0

/-- Embeds `(rugData.score || 0) > this.config.maxRugScore` (unguarded: `null` → `0`). -/
def rugScoreFail (cfg : FilterConfig) (rug : RugData) : Bool :=
  optQ rug.score > cfg.maxRugScore.getD 0

/-- Embeds `(rugData.risks || []).filter(r => blockedRiskTypes.includes(r)).length > 0`. -/
def riskTypesFail (cfg : FilterConfig) (rug : RugData) : Bool :=
  ((rug.risks.getD []).filter (fun risk => cfg.blockedRiskTypes.contains risk)).length > 0

def netTradersFail (cfg : FilterConfig) (pair : Pair) : Bool :=
  ((netTradersOf pair : ℚ)) < cfg.minNetTraders.getD 0

/-- The market-cap block is guarded by
`if (this.config.minMarketCapUSD || this.config.maxMarketCapUSD)` and each
branch again by its own bound's truthiness; the outer guard is subsumed by
the inner one, so the flattened condition is equivalent. -/
def marketCapMinFail (cfg : FilterConfig) (pair : Pair) : Bool :=
  truthy cfg.minMarketCapUSD && estimateMarketCap pair < cfg.minMarketCapUSD.getD 0

def marketCapMaxFail (cfg : FilterConfig) (pair : Pair) : Bool :=
  truthy cfg.maxMarketCapUSD && estimateMarketCap pair > cfg.maxMarketCapUSD.getD 0

/-- Embeds `rugData.freezeAuthority && rugData.freezeAuthority !== null`. -/
def freezeAuthorityFail (rug : RugData) : Bool := truthyStr rug.freezeAuthority

/-- Embeds `rugData.mintAuthority && rugData.mintAuthority !== null`. -/
def mintAuthorityFail (rug : RugData) : Bool := truthyStr rug.mintAuthority

/-- The `FilterOutcome`: `passed`, the `filters` stage list (always a
singleton on failure, empty on success) and the derived payload fields the
success branch returns (absent on failure). -/
structure FilterOutcome where
  passed : Bool
  filters : List String
  holderData : Option HolderDistribution
  netTraders : Option ℤ
  rugScore : Option ℚ
  risks : Option (List String)
  solLiquidity : Option ℚ
  estimatedMarketCap : Option ℚ
deriving DecidableEq

/-- A failing early return: `{passed: false, reason: …, filters: [stage]}`. -/
def failResult (stage : String) : FilterOutcome :=
  ⟨false, [stage], none, none, none, none, none, none⟩

/-- The early-return tests of `filterToken`, as the ordered list of
`(stage, condition)` pairs in source order.  The source evaluates them as an
ordered short-circuit chain of early returns; since every test is
side-effect-free, returning the first stage whose condition holds is the same
function. -/
def stageChecks (cfg : FilterConfig) (now : ℚ) (pair : Pair) (rug : RugData) :
    List (String × Bool) :=
  [("validation", validationFail pair),
   ("chain_mismatch", chainFail pair),
   ("age_max", ageMaxFail cfg now pair),
   ("age_min", ageMinFail cfg now pair),
   ("dex_blocked", dexBlockedFail cfg pair),
   ("dex_allowed", dexAllowedFail cfg pair),
   ("volume_min", volumeMinFail cfg pair),
   ("volume_max", volumeMaxFail cfg pair),
   ("liquidity_min", liquidityMinFail cfg pair),
   ("liquidity_max", liquidityMaxFail cfg pair),
   ("sol_liquidity", solLiquidityFail cfg pair),
   ("price_change_max", priceChangeMaxFail cfg pair),
   ("price_change_min", priceChangeMinFail cfg pair),
   ("holders_min", holdersMinFail cfg rug),
   ("holder_concentration", holderConcFail cfg rug),
   ("rug_score", rugScoreFail cfg rug),
   ("risk_types", riskTypesFail cfg rug),
   ("net_traders", netTradersFail cfg pair),
   ("market_cap_min", marketCapMinFail cfg pair),
   ("market_cap_max", marketCapMaxFail cfg pair),
   ("freeze_authority", freezeAuthorityFail rug),
   ("mint_authority", mintAuthorityFail rug)]

/-- The success return of `filterToken` (`passed: true` with the derived
payload). -/
def passResult (pair : Pair) (rug : RugData) : FilterOutcome :=
  ⟨true, [],
   some (calculateHolderDistribution rug.holders),
   some (netTradersOf pair),
   some (optQ rug.score),
   some (rug.risks.getD []),
   some (getSOLLiquidity pair),
   some (estimateMarketCap pair)⟩

/-- Embeds `SolanaTokenFilter.filterToken`, with `now` the `Date.now()` reading taken
at the top of the invocation: the first failing stage is reported, later
stages are never reached, and if no stage fails the success payload is
returned. -/
def filterToken (cfg : FilterConfig) (now : ℚ) (pair : Pair) (rug : RugData) : FilterOutcome :=
  match (stageChecks cfg now pair rug).find? (fun sc => sc.2) with
  | some sc => failResult sc.1
  | none => passResult pair rug

/-! ## Risk assessor (`SolanaTokenMonitor.checkSolanaRugScore`) -/

/-- A raw rug-check payload (`response.data`); every field may be absent.
The `supply` and `markets` pass-through fields are not modelled (nothing in
the pipeline reads them). -/
structure RawReport where
  score : Option ℚ
  risks : Option (List String)
  holders : Option HoldersData
  freezeAuthority : Option String
  mintAuthority : Option String
  updateAuthority : Option String
  isMutable : Option Bool
deriving DecidableEq

/-- JS `x || null` on a nullable string: the empty string collapses to `null`. -/
def jsOrNullStr (o : Option String) : Option String :=
  match o with
  | some s => if s == "" then none else some s
  | none => none

/-- The JS empty object `{}` used for `holders` defaults. -/
def emptyHoldersData : HoldersData := ⟨none, none, none⟩

/-- The degraded-default risk record returned from the `catch` branch of
`checkSolanaRugScore`. -/
def defaultRiskRecord : RugData :=
  { score := some 5
    risks := some ["data_unavailable"]
    holders := some emptyHoldersData
    freezeAuthority := none
    mintAuthority := none
    updateAuthority := none
    isMutable := true }

/-- Embeds `SolanaTokenMonitor.checkSolanaRugScore`, as a function of the outcome of
the (rate-limited, retried) remote call: `.ok data` is the normalizing success
branch, `.error e` the `catch` branch. -/
def checkSolanaRugScore {ε : Type} (response : Except ε RawReport) : RugData :=
  match response with
  | .ok data =>
    { score := some (optQ data.score)
      risks := some (data.risks.getD [])
      holders := some (data.holders.getD emptyHoldersData)
      freezeAuthority := jsOrNullStr data.freezeAuthority
      mintAuthority := jsOrNullStr data.mintAuthority
      updateAuthority := jsOrNullStr data.updateAuthority
      isMutable := data.isMutable != some false }
  | .error _ => defaultRiskRecord

/-! ## Persistence (`tokens` table, `saveSolanaToken`, `checkExistingToken`) -/

/-- The columns updated by the `ON CONFLICT (pair_address) DO UPDATE` clause
of `saveSolanaToken` (all mutable market/derived fields). -/
structure MarketData where
  priceUsd : ℚ
  priceSol : ℚ
  volume24h : ℚ
  volume6h : ℚ
  volume1h : ℚ
  volume5m : ℚ
  priceChange24h : ℚ
  priceChange6h : ℚ
  priceChange1h : ℚ
  priceChange5m : ℚ
  liquidityUsd : ℚ
  solLiquidity : ℚ
  holdersCount : ℚ
  topHolderPercentage : ℚ
  netTraders : ℤ
  rugScore : ℚ
  rugRisks : List String
  freezeAuthority : Option String
  mintAuthority : Option String
  updateAuthority : Option String
  isMutable : Bool
deriving DecidableEq

/-- A row of the `tokens` table.  `createdAt`/`updatedAt` are epoch-ms
timestamps filled by the database defaults / the upsert. -/
structure StoredToken where
  pairAddress : String
  chainId : String
  dexId : String
  baseTokenAddress : String
  baseTokenName : String
  baseTokenSymbol : String
  quoteTokenAddress : String
  quoteTokenSymbol : String
  pairCreatedAt : ℚ
  market : MarketData
  status : String
  createdAt : ℚ
  updatedAt : ℚ
deriving DecidableEq

abbrev Store := List StoredToken

/-- Embeds `SELECT ... FROM tokens WHERE pair_address = $1` (the address column is
unique, so the first match is the row). -/
def findToken (store : Store) (addr : String) : Option StoredToken :=
  store.find? (fun t => t.pairAddress == addr)

/-- Replace the first row matching `addr` by its image under `f`. -/
def updateFirst (addr : String) (f : StoredToken → StoredToken) : Store → Store
  | [] => []
  | t :: rest =>
    if t.pairAddress == addr then f t :: rest else t :: updateFirst addr f rest

/-- The `VALUES` computed by `saveSolanaToken` for the mutable columns.
`solLiquidity` here is `liquidityUSD / solPrice` (the save-time formula,
distinct from the filter's `getSOLLiquidity`).  On the passing outcomes this
is called with, `holderData`/`netTraders` are present; absent fields fall
back to the degraded holder summary / `0`. -/
def marketValues (pair : Pair) (rug : RugData) (fr : FilterOutcome) : MarketData :=
  let solPrice := optQ pair.priceNative
  let liquidityUSD := liqUsd pair
  let hd := fr.holderData.getD ⟨0, 100, none⟩
  { priceUsd := optQ pair.priceUsd
    priceSol := solPrice
    volume24h := optQ (pair.volume.bind (fun v => v.h24))
    volume6h := optQ (pair.volume.bind (fun v => v.h6))
    volume1h := optQ (pair.volume.bind (fun v => v.h1))
    volume5m := optQ (pair.volume.bind (fun v => v.m5))
    priceChange24h := optQ (pair.priceChange.bind (fun p => p.h24))
    priceChange6h := optQ (pair.priceChange.bind (fun p => p.h6))
    priceChange1h := optQ (pair.priceChange.bind (fun p => p.h1))
    priceChange5m := optQ (pair.priceChange.bind (fun p => p.m5))
    liquidityUsd := liquidityUSD
    solLiquidity := if solPrice > 0 then liquidityUSD / solPrice else 0
    holdersCount := hd.count
    topHolderPercentage := hd.topPercentage
    netTraders := fr.netTraders.getD 0
    rugScore := optQ rug.score
    rugRisks := rug.risks.getD []
    freezeAuthority := rug.freezeAuthority
    mintAuthority := rug.mintAuthority
    updateAuthority := rug.updateAuthority
    isMutable := rug.isMutable }

/-- The row created by the `INSERT` arm: `status`, `created_at` and
`updated_at` come from the table defaults (`'active'`, `CURRENT_TIMESTAMP`). -/
def insertedToken (now : ℚ) (pair : Pair) (rug : RugData) (fr : FilterOutcome) : StoredToken :=
  { pairAddress := pair.pairAddress
    chainId := "solana"
    dexId := pair.dexId
    baseTokenAddress := pair.baseToken.address
    baseTokenName := pair.baseToken.name
    baseTokenSymbol := pair.baseToken.symbol
    quoteTokenAddress := pair.quoteToken.address
    quoteTokenSymbol := pair.quoteToken.symbol
    pairCreatedAt := pair.pairCreatedAt.getD 0
    market := marketValues pair rug fr
    status := "active"
    createdAt := now
    updatedAt := now }

/-- The row transformation of the `DO UPDATE` arm: replace the mutable market
columns and bump `updated_at`, leaving every other column as stored. -/
def upsertUpdate (pair : Pair) (rug : RugData) (fr : FilterOutcome) (now : ℚ)
    (old : StoredToken) : StoredToken :=
  { old with market := marketValues pair rug fr, updatedAt := now }

/-- Embeds `SolanaTokenMonitor.saveSolanaToken`: insert-or-update keyed by the unique
`pair_address`.  The update arm touches only the `MarketData` columns and
bumps `updated_at`; every other column (including `status` and `created_at`)
is left as stored. -/
def saveSolanaToken (store : Store) (now : ℚ) (pair : Pair) (rug : RugData)
    (fr : FilterOutcome) : Store :=
  match findToken store pair.pairAddress with
  | some _ => updateFirst pair.pairAddress (upsertUpdate pair rug fr now) store
  | none => insertedToken now pair rug fr :: store

/-- Embeds `SolanaTokenMonitor.checkExistingToken`: returns the stored row iff it was
updated less than one hour ago (the freshness window); otherwise `none`. -/
def checkExistingToken (store : Store) (now : ℚ) (pairAddress : String) : Option StoredToken :=
  match findToken store pairAddress with
  | none => none
  | some token =>
    let hoursSinceUpdate := (now - token.updatedAt) / (1000 * 60 * 60)
    if hoursSinceUpdate < 1 then some token else none

inductive PairOutcome where
  | skipped
  | saved
  | filtered
deriving DecidableEq

/-- The per-pair body of `SolanaTokenMonitor.processSolanaTokens`: freshness
check, risk assessment (with its outcome passed in as an `Except`), filter,
then upsert on pass.  A fresh record is skipped (counted neither saved nor
filtered). -/
def processPair {ε : Type} (cfg : FilterConfig) (store : Store) (now : ℚ) (pair : Pair)
    (riskResponse : Except ε RawReport) : Store × PairOutcome :=
  match checkExistingToken store now pair.pairAddress with
  | some _ => (store, .skipped)
  | none =>
    let rugData := checkSolanaRugScore riskResponse
    let filterResult := filterToken cfg now pair rugData
    if filterResult.passed then
      (saveSolanaToken store now pair rugData filterResult, .saved)
    else (store, .filtered)

/-! ## Rate limiter (`RateLimiter` in `config/api.js`) -/

/-- Rate-limiter configuration: at most `requests` acquisitions per rolling
`interval`-millisecond window. -/
structure RateLimiter where
  requests : Nat
  interval : ℚ
deriving DecidableEq

/-- Embeds `this.requestTimes.filter(time => now - time < this.interval)`. -/
def pruneTimes (interval now : ℚ) (times : List ℚ) : List ℚ :=
  times.filter (fun time => now - time < interval)

/-- Embeds `Math.min(...list)`; `none` models the `Infinity` of an empty spread. -/
def minTime : List ℚ → Option ℚ
  | [] => none
  | t :: rest =>
    some (match minTime rest with
          | none => t
          | some m => min t m)

/-- Embeds `RateLimiter.acquire` as a state transformer: returns the slept duration
and the new `requestTimes`.  The recorded timestamp is the `now` captured at
entry (the source pushes the pre-sleep `now`).  An empty retained list makes
the oldest `Infinity` and the wait `-Infinity`, hence no sleep (`0`). -/
def acquire (lim : RateLimiter) (times : List ℚ) (now : ℚ) : ℚ × List ℚ :=
  let retained := pruneTimes lim.interval now times
  let waitTime : ℚ :=
    if lim.requests ≤ retained.length then
      match minTime retained with
      | some oldestRequest =>
        let w := lim.interval - (now - oldestRequest)
        if w > 0 then w else 0
      | none => 0
    else 0
  (waitTime, retained ++ [now])

/-- A sequence of acquisitions at the given call times, tracking only the
recorded-timestamp state. -/
def runAcquires (lim : RateLimiter) (start : List ℚ) (nows : List ℚ) : List ℚ :=
  nows.foldl (fun st n => (acquire lim st n).2) start

/-! ## Retry combinator (`retryRequest` in `config/api.js`) -/

/-- Observable trace of one `retryRequest` run: the outcome (`none` models
the `throw lastError` with no attempt ever made, reachable only for
`maxRetries = 0`), the number of invocations of the operation, and the
back-off delays slept between consecutive attempts. -/
structure RetryTrace (ε α : Type) where
  result : Option (Except ε α)
  calls : Nat
  delays : List ℚ

/-- The `for (attempt = 1; attempt <= maxRetries; attempt++)` loop;
`rem` counts the remaining loop iterations (`attempt + rem = maxRetries + 1`
at every call from `retryRequest`).  The operation is indexed by the attempt
number so that distinct attempts may have distinct outcomes. -/
def retryAux {ε α : Type} (op : Nat → Except ε α) (baseDelay : ℚ) (maxRetries : Nat) :
    Nat → Nat → RetryTrace ε α
  | _, 0 => ⟨none, 0, []⟩
  | attempt, rem + 1 =>
    match op attempt with
    | .ok a => ⟨some (.ok a), 1, []⟩
    | .error e =>
      if attempt == maxRetries then ⟨some (.error e), 1, []⟩
      else
        let delay := baseDelay * 2 ^ (attempt - 1)
        let t := retryAux op baseDelay maxRetries (attempt + 1) rem
        ⟨t.result, t.calls + 1, delay :: t.delays⟩

/-- Embeds `retryRequest(requestFn, maxRetries)` with base delay
`apiConfig.general.retryDelay`. -/
def retryRequest {ε α : Type} (op : Nat → Except ε α) (baseDelay : ℚ)
    (maxRetries : Nat) : RetryTrace ε α :=
  retryAux op baseDelay maxRetries 1 maxRetries

/-! ## Concrete sample inputs (used by witnesses and counterexamples) -/

/-- A well-formed Raydium pair, created at epoch-ms `1000000`. -/
def samplePair : Pair :=
  { pairAddress := "PAIRADDR"
    chainId := "solana"
    dexId := "raydium"
    baseToken := ⟨"BASEADDR", "Base", "BASE"⟩
    quoteToken := ⟨"QUOTEADDR", "Sol", "SOL"⟩
    priceUsd := some 1
    priceNative := some 1
    volume := some ⟨some 1000, some 100, some 10, some 1⟩
    priceChange := some ⟨some 5, some 2, some 1, some 0⟩
    liquidity := some ⟨some 10000⟩
    pairCreatedAt := some 1000000 }

/-- Ten minutes after `samplePair` was created. -/
def sampleNow : ℚ := 1600000

/-- A holder set: ten-plus holders reported, top holder owns 1 %. -/
def passingHolders : HoldersData := ⟨some [⟨"HOLDER1", 1⟩], some 100, some 12⟩

/-- A risk record that passes every stage of the default configuration. -/
def passingRug : RugData :=
  ⟨some 2, some [], some passingHolders, none, none, none, true⟩

/-! ## Helper lemmas on the filter chain -/

/-- Evaluation facts for the sample holder address. -/
theorem isBurnAddress_holder1 : isBurnAddress "HOLDER1" = false := rfl

theorem isProgramAccount_holder1 : isProgramAccount "HOLDER1" = false := rfl

/-- Lemma: `filterToken` succeeds exactly when every stage condition is false. -/
theorem filterToken_passed_iff (cfg : FilterConfig) (now : ℚ) (pair : Pair) (rug : RugData) :
    (filterToken cfg now pair rug).passed = true ↔
      ∀ sc ∈ stageChecks cfg now pair rug, sc.2 = false := by
  constructor
  · intro h sc hmem
    cases hfind : (stageChecks cfg now pair rug).find? (fun sc => sc.2) with
    | some sc2 => simp [filterToken, hfind, failResult] at h
    | none => simpa using List.find?_eq_none.mp hfind sc hmem
  · intro h
    have hfind : (stageChecks cfg now pair rug).find? (fun sc => sc.2) = none := by
      apply List.find?_eq_none.mpr
      intro sc hmem
      simp [h sc hmem]
    simp [filterToken, hfind, passResult]

/-- If `filterToken` reports stage `s`, then `(s, true)` occurs in the stage
list: the reported stage's condition did hold. -/
theorem filterToken_fail_mem (cfg : FilterConfig) (now : ℚ) (pair : Pair) (rug : RugData)
    (s : String) (h : (filterToken cfg now pair rug).filters = [s]) :
    (s, true) ∈ stageChecks cfg now pair rug := by
  cases hfind : (stageChecks cfg now pair rug).find? (fun sc => sc.2) with
  | none => simp [filterToken, hfind, passResult] at h
  | some sc =>
    have hmem := List.mem_of_find?_eq_some hfind
    have hcond : sc.2 = true := by simpa using List.find?_some hfind
    have hs : sc.1 = s := by simpa [filterToken, hfind, failResult] using h
    have : sc = (s, true) := by
      cases sc
      simp_all
    rwa [this] at hmem

/-- A stage whose condition is false wherever it occurs in the chain is never
the reported failure. -/
theorem stage_not_reported (cfg : FilterConfig) (now : ℚ) (pair : Pair) (rug : RugData)
    (s : String) (hcond : ∀ b, (s, b) ∈ stageChecks cfg now pair rug → b = false) :
    (filterToken cfg now pair rug).filters ≠ [s] := by
  intro h
  have hmem := filterToken_fail_mem cfg now pair rug s h
  exact Bool.noConfusion (hcond true hmem)

/-- A risk record with its authority fields nulled (used to express
"every stage before the authority checks passes"). -/
def noAuthorities (rug : RugData) : RugData :=
  { rug with freezeAuthority := none, mintAuthority := none }

theorem holdersMinFail_noAuth (cfg : FilterConfig) (rug : RugData) :
    holdersMinFail cfg (noAuthorities rug) = holdersMinFail cfg rug := rfl

theorem holderConcFail_noAuth (cfg : FilterConfig) (rug : RugData) :
    holderConcFail cfg (noAuthorities rug) = holderConcFail cfg rug := rfl

theorem rugScoreFail_noAuth (cfg : FilterConfig) (rug : RugData) :
    rugScoreFail cfg (noAuthorities rug) = rugScoreFail cfg rug := rfl

theorem riskTypesFail_noAuth (cfg : FilterConfig) (rug : RugData) :
    riskTypesFail cfg (noAuthorities rug) = riskTypesFail cfg rug := rfl

/-! ## Claim C1 -/

/-- C1: when every stage before the 24h-volume stage passes and the pair
violates both the volume minimum and the holder minimum, `filterToken`
reports `volume_min` — the earlier stage of the §4.4 order — with
`passed = false`, and never reports `holders_min`. -/
theorem claim1_volume_min_reported_first (cfg : FilterConfig) (now : ℚ) (pair : Pair)
    (rug : RugData)
    (h1 : validationFail pair = false) (h2 : chainFail pair = false)
    (h3 : ageMaxFail cfg now pair = false) (h4 : ageMinFail cfg now pair = false)
    (h5 : dexBlockedFail cfg pair = false) (h6 : dexAllowedFail cfg pair = false)
    (hvol : vol24 pair < cfg.minVolume24h.getD 0)
    (hhold : (calculateHolderDistribution rug.holders).count < cfg.minHolders.getD 0) :
    filterToken cfg now pair rug = failResult "volume_min" ∧
    (filterToken cfg now pair rug).passed = false ∧
    (filterToken cfg now pair rug).filters = ["volume_min"] ∧
    (filterToken cfg now pair rug).filters ≠ ["holders_min"] := by
  have hv : volumeMinFail cfg pair = true := by
    simp [volumeMinFail, hvol]
  have hres : filterToken cfg now pair rug = failResult "volume_min" := by
    simp only [filterToken, stageChecks, List.find?, h1, h2, h3, h4, h5, h6, hv]
  refine ⟨hres, ?_, ?_, ?_⟩ <;> simp [hres, failResult]

/-- C1 witness: the sample pair with a $5 daily volume and an empty risk
record fails at `volume_min` under the default configuration (minimum $10,
minimum 10 holders). -/
theorem claim1_witness :
    filterToken defaultFilterConfig sampleNow
        { samplePair with volume := some ⟨some 5, none, none, none⟩ }
        ⟨none, none, none, none, none, none, true⟩ =
      failResult "volume_min" ∧
    (filterToken defaultFilterConfig sampleNow
        { samplePair with volume := some ⟨some 5, none, none, none⟩ }
        ⟨none, none, none, none, none, none, true⟩).passed = false ∧
    (filterToken defaultFilterConfig sampleNow
        { samplePair with volume := some ⟨some 5, none, none, none⟩ }
        ⟨none, none, none, none, none, none, true⟩).filters = ["volume_min"] ∧
    (filterToken defaultFilterConfig sampleNow
        { samplePair with volume := some ⟨some 5, none, none, none⟩ }
        ⟨none, none, none, none, none, none, true⟩).filters ≠ ["holders_min"] := by
  apply claim1_volume_min_reported_first
  · decide
  · decide
  · norm_num [ageMaxFail, tokenAgeHours, tokenAgeMs, samplePair, sampleNow, defaultFilterConfig]
  · norm_num [ageMinFail, tokenAgeMinutes, tokenAgeMs, samplePair, sampleNow, defaultFilterConfig]
  · decide
  · decide
  · norm_num [vol24, optQ, samplePair, defaultFilterConfig]
  · norm_num [calculateHolderDistribution, defaultFilterConfig]

/-! ## Claim C4 -/

/-- C4: for a pair and risk record passing every stage before the authority
checks (in particular any rug score at or below the ceiling, including `0`),
a present mint authority forces the `mint_authority` failure (when no freeze
authority is present), a present freeze authority forces the
`freeze_authority` failure, and in either case the pair does not pass.  The
normalization hypotheses record that risk records produced by
`checkSolanaRugScore` never carry an empty-string authority (`x || null`). -/
theorem claim4_authority_veto (cfg : FilterConfig) (now : ℚ) (pair : Pair) (rug : RugData)
    (hpre : (filterToken cfg now pair (noAuthorities rug)).passed = true)
    (hnf : ∀ s, rug.freezeAuthority = some s → s ≠ "")
    (hnm : ∀ s, rug.mintAuthority = some s → s ≠ "") :
    (rug.mintAuthority ≠ none → rug.freezeAuthority = none →
        filterToken cfg now pair rug = failResult "mint_authority") ∧
    (rug.freezeAuthority ≠ none →
        filterToken cfg now pair rug = failResult "freeze_authority") ∧
    ((rug.mintAuthority ≠ none ∨ rug.freezeAuthority ≠ none) →
        (filterToken cfg now pair rug).passed = false) := by
  rw [filterToken_passed_iff] at hpre
  simp only [stageChecks, List.mem_cons, forall_eq_or_imp] at hpre
  obtain ⟨h1, h2, h3, h4, h5, h6, h7, h8, h9, h10, h11, h12, h13, h14, h15, h16, h17,
    h18, h19, h20, -, -⟩ := hpre
  rw [holdersMinFail_noAuth] at h14
  rw [holderConcFail_noAuth] at h15
  rw [rugScoreFail_noAuth] at h16
  rw [riskTypesFail_noAuth] at h17
  have hmintCase : rug.mintAuthority ≠ none → rug.freezeAuthority = none →
      filterToken cfg now pair rug = failResult "mint_authority" := by
    intro hm hf
    obtain ⟨a, ha⟩ := Option.ne_none_iff_exists.mp hm
    have hfz2 : freezeAuthorityFail rug = false := by
      simp [freezeAuthorityFail, truthyStr, hf]
    have hmint2 : mintAuthorityFail rug = true := by
      simp [mintAuthorityFail, truthyStr, ha.symm]
      exact hnm a ha.symm
    simp only [filterToken, stageChecks, List.find?, h1, h2, h3, h4, h5, h6, h7, h8, h9,
      h10, h11, h12, h13, h14, h15, h16, h17, h18, h19, h20, hfz2, hmint2]
  have hfreezeCase : rug.freezeAuthority ≠ none →
      filterToken cfg now pair rug = failResult "freeze_authority" := by
    intro hf
    obtain ⟨a, ha⟩ := Option.ne_none_iff_exists.mp hf
    have hfz2 : freezeAuthorityFail rug = true := by
      simp [freezeAuthorityFail, truthyStr, ha.symm]
      exact hnf a ha.symm
    simp only [filterToken, stageChecks, List.find?, h1, h2, h3, h4, h5, h6, h7, h8, h9,
      h10, h11, h12, h13, h14, h15, h16, h17, h18, h19, h20, hfz2]
  refine ⟨hmintCase, hfreezeCase, ?_⟩
  intro hor
  by_cases hf : rug.freezeAuthority = none
  · rcases hor with hm | hfne
    · rw [hmintCase hm hf]
      rfl
    · exact absurd hf hfne
  · rw [hfreezeCase hf]
    rfl

/-- C4 witness: the sample pair with risk score `0` and a mint authority
fails at `mint_authority`; with a freeze authority it fails at
`freeze_authority`; in both cases it does not pass. -/
theorem claim4_witness :
    (filterToken defaultFilterConfig sampleNow samplePair
        { passingRug with score := some 0, mintAuthority := some "MINTAUTH" } =
      failResult "mint_authority") ∧
    ((filterToken defaultFilterConfig sampleNow samplePair
        { passingRug with score := some 0, mintAuthority := some "MINTAUTH" }).passed =
      false) := by
  have h := claim4_authority_veto defaultFilterConfig sampleNow samplePair
    { passingRug with score := some 0, mintAuthority := some "MINTAUTH" }
    (by
      norm_num [filterToken, stageChecks, List.find?, passResult, noAuthorities,
        validationFail, chainFail, ageMaxFail, ageMinFail, dexBlockedFail,
        dexAllowedFail, volumeMinFail, volumeMaxFail, liquidityMinFail, liquidityMaxFail,
        solLiquidityFail, priceChangeMaxFail, priceChangeMinFail, holdersMinFail,
        holderConcFail, rugScoreFail, riskTypesFail, netTradersFail, marketCapMinFail,
        marketCapMaxFail, freezeAuthorityFail, mintAuthorityFail, truthyStr,
        tokenAgeHours, tokenAgeMinutes, tokenAgeMs, vol24, liqUsd, pc24, optQ, truthy,
        getSOLLiquidity, estimateMarketCap, netTradersOf, calculateHolderDistribution,
        isBurnAddress_holder1, isProgramAccount_holder1, List.filter_cons, List.filter_nil,
        List.map_cons, List.map_nil, defaultFilterConfig, samplePair, sampleNow,
        passingRug, passingHolders]
      all_goals decide)
    (by intro s hs; simp [passingRug] at hs)
    (by intro s hs; simp [passingRug] at hs; simp [hs.symm])
  refine ⟨h.1 (by simp) rfl, ?_⟩
  have := h.2.2 (Or.inl (by simp))
  exact this

/-! ## Claim C5 (refuted as stated, amended) -/

/-- C5 counterexample: the three unguarded stages compare against the unset
bound coerced to `0`, so with `maxTokenAgeHours`, `maxTopHolderPercentage` or
`maxRugScore` set to `null` a pair can still fail at `age_max`,
`holder_concentration` or `rug_score` respectively — exhibited on the sample
pair, which passes the full default configuration. -/
theorem claim5_counterexample :
    ({ defaultFilterConfig with maxTokenAgeHours := none } : FilterConfig).maxTokenAgeHours
        = none ∧
    filterToken { defaultFilterConfig with maxTokenAgeHours := none } sampleNow samplePair
        passingRug = failResult "age_max" ∧
    ({ defaultFilterConfig with maxTopHolderPercentage := none } :
        FilterConfig).maxTopHolderPercentage = none ∧
    filterToken { defaultFilterConfig with maxTopHolderPercentage := none } sampleNow
        samplePair passingRug = failResult "holder_concentration" ∧
    ({ defaultFilterConfig with maxRugScore := none } : FilterConfig).maxRugScore = none ∧
    filterToken { defaultFilterConfig with maxRugScore := none } sampleNow samplePair
        passingRug = failResult "rug_score" := by
  refine ⟨rfl, ?_, rfl, ?_, rfl, ?_⟩ <;>
  · norm_num [filterToken, stageChecks, List.find?, passResult,
      validationFail, chainFail, ageMaxFail, ageMinFail, dexBlockedFail,
      dexAllowedFail, volumeMinFail, volumeMaxFail, liquidityMinFail, liquidityMaxFail,
      solLiquidityFail, priceChangeMaxFail, priceChangeMinFail, holdersMinFail,
      holderConcFail, rugScoreFail, riskTypesFail, netTradersFail, marketCapMinFail,
      marketCapMaxFail, freezeAuthorityFail, mintAuthorityFail, truthyStr,
      tokenAgeHours, tokenAgeMinutes, tokenAgeMs, vol24, liqUsd, pc24, optQ, truthy,
      getSOLLiquidity, estimateMarketCap, netTradersOf, calculateHolderDistribution,
      isBurnAddress_holder1, isProgramAccount_holder1, List.filter_cons, List.filter_nil,
      List.map_cons, List.map_nil, defaultFilterConfig, samplePair, sampleNow,
      passingRug, passingHolders]
    all_goals decide

/-- C5 amended: stage skipping on an unset bound holds exactly for the stages
whose configuration read is guarded by a JS truthiness check — per stage:
whenever `maxVolume24h`, `maxLiquidity`, `maxPriceChange24h`,
`minPriceChange24h`, `minMarketCapUSD`, `maxMarketCapUSD` or `allowedDEXs` is
itself unset, no pair is failed at `volume_max`, `liquidity_max`,
`price_change_max`, `price_change_min`, `market_cap_min`, `market_cap_max` or
`dex_allowed` respectively, regardless of the other bounds.  (The unguarded
`age_max`, `holder_concentration` and `rug_score` stages compare against
`null` coerced to `0` and can still fail — see the counterexample.) -/
theorem claim5_amended_guarded_stages_skip (cfg : FilterConfig) (now : ℚ) (pair : Pair)
    (rug : RugData) :
    (cfg.maxVolume24h = none →
        (filterToken cfg now pair rug).filters ≠ ["volume_max"]) ∧
    (cfg.maxLiquidity = none →
        (filterToken cfg now pair rug).filters ≠ ["liquidity_max"]) ∧
    (cfg.maxPriceChange24h = none →
        (filterToken cfg now pair rug).filters ≠ ["price_change_max"]) ∧
    (cfg.minPriceChange24h = none →
        (filterToken cfg now pair rug).filters ≠ ["price_change_min"]) ∧
    (cfg.minMarketCapUSD = none →
        (filterToken cfg now pair rug).filters ≠ ["market_cap_min"]) ∧
    (cfg.maxMarketCapUSD = none →
        (filterToken cfg now pair rug).filters ≠ ["market_cap_max"]) ∧
    (cfg.allowedDEXs = none →
        (filterToken cfg now pair rug).filters ≠ ["dex_allowed"]) := by
  refine ⟨?_, ?_, ?_, ?_, ?_, ?_, ?_⟩ <;> intro h
  · have hc : volumeMaxFail cfg pair = false := by simp [volumeMaxFail, truthy, h]
    apply stage_not_reported
    intro b hb
    simp [stageChecks] at hb
    simp [hb, hc]
  · have hc : liquidityMaxFail cfg pair = false := by simp [liquidityMaxFail, truthy, h]
    apply stage_not_reported
    intro b hb
    simp [stageChecks] at hb
    simp [hb, hc]
  · have hc : priceChangeMaxFail cfg pair = false := by
      simp [priceChangeMaxFail, truthy, h]
    apply stage_not_reported
    intro b hb
    simp [stageChecks] at hb
    simp [hb, hc]
  · have hc : priceChangeMinFail cfg pair = false := by
      simp [priceChangeMinFail, truthy, h]
    apply stage_not_reported
    intro b hb
    simp [stageChecks] at hb
    simp [hb, hc]
  · have hc : marketCapMinFail cfg pair = false := by simp [marketCapMinFail, truthy, h]
    apply stage_not_reported
    intro b hb
    simp [stageChecks] at hb
    simp [hb, hc]
  · have hc : marketCapMaxFail cfg pair = false := by simp [marketCapMaxFail, truthy, h]
    apply stage_not_reported
    intro b hb
    simp [stageChecks] at hb
    simp [hb, hc]
  · have hc : dexAllowedFail cfg pair = false := by simp [dexAllowedFail, h]
    apply stage_not_reported
    intro b hb
    simp [stageChecks] at hb
    simp [hb, hc]

/-- A configuration in which every guarded bound except `maxVolume24h` is
set (reachable at runtime via `updateConfig`). -/
def onlyVolumeUnsetConfig : FilterConfig :=
  { defaultFilterConfig with
      maxLiquidity := some 500000
      maxPriceChange24h := some 1000
      minPriceChange24h := some (-1000)
      minMarketCapUSD := some 1
      maxMarketCapUSD := some 10000000 }

/-- C5 amended-claim witness, exercising each per-stage conjunct: on a
configuration whose only unset guarded bound is `maxVolume24h` the sample
pair is not failed at `volume_max`; on the default configuration the other
unset guarded bounds skip their stages; and with the allow-list unset the
pair is not failed at `dex_allowed`. -/
theorem claim5_witness :
    ((filterToken onlyVolumeUnsetConfig sampleNow samplePair passingRug).filters ≠
        ["volume_max"]) ∧
    ((filterToken defaultFilterConfig sampleNow samplePair passingRug).filters ≠
        ["liquidity_max"]) ∧
    ((filterToken defaultFilterConfig sampleNow samplePair passingRug).filters ≠
        ["price_change_max"]) ∧
    ((filterToken defaultFilterConfig sampleNow samplePair passingRug).filters ≠
        ["price_change_min"]) ∧
    ((filterToken defaultFilterConfig sampleNow samplePair passingRug).filters ≠
        ["market_cap_min"]) ∧
    ((filterToken defaultFilterConfig sampleNow samplePair passingRug).filters ≠
        ["market_cap_max"]) ∧
    ((filterToken { defaultFilterConfig with allowedDEXs := none } sampleNow samplePair
        passingRug).filters ≠ ["dex_allowed"]) :=
  ⟨(claim5_amended_guarded_stages_skip onlyVolumeUnsetConfig sampleNow samplePair
      passingRug).1 rfl,
   (claim5_amended_guarded_stages_skip defaultFilterConfig sampleNow samplePair
      passingRug).2.1 rfl,
   (claim5_amended_guarded_stages_skip defaultFilterConfig sampleNow samplePair
      passingRug).2.2.1 rfl,
   (claim5_amended_guarded_stages_skip defaultFilterConfig sampleNow samplePair
      passingRug).2.2.2.1 rfl,
   (claim5_amended_guarded_stages_skip defaultFilterConfig sampleNow samplePair
      passingRug).2.2.2.2.1 rfl,
   (claim5_amended_guarded_stages_skip defaultFilterConfig sampleNow samplePair
      passingRug).2.2.2.2.2.1 rfl,
   (claim5_amended_guarded_stages_skip { defaultFilterConfig with allowedDEXs := none }
      sampleNow samplePair passingRug).2.2.2.2.2.2 rfl⟩

/-! ## Claim C6 (refuted as stated, amended) -/

/-- C6 counterexample: two invocations with identical pair, risk record and
configuration but different `Date.now()` readings return different outcomes —
at `sampleNow` the sample pair passes, 24¾ hours after creation it fails
`age_max`.  `filterToken` is therefore not a function of the pair, risk
record and configuration alone. -/
theorem claim6_counterexample :
    filterToken defaultFilterConfig sampleNow samplePair passingRug ≠
      filterToken defaultFilterConfig 90000000 samplePair passingRug := by
  have hpass : (filterToken defaultFilterConfig sampleNow samplePair passingRug).passed
      = true := by
    norm_num [filterToken, stageChecks, List.find?, passResult,
      validationFail, chainFail, ageMaxFail, ageMinFail, dexBlockedFail,
      dexAllowedFail, volumeMinFail, volumeMaxFail, liquidityMinFail, liquidityMaxFail,
      solLiquidityFail, priceChangeMaxFail, priceChangeMinFail, holdersMinFail,
      holderConcFail, rugScoreFail, riskTypesFail, netTradersFail, marketCapMinFail,
      marketCapMaxFail, freezeAuthorityFail, mintAuthorityFail, truthyStr,
      tokenAgeHours, tokenAgeMinutes, tokenAgeMs, vol24, liqUsd, pc24, optQ, truthy,
      getSOLLiquidity, estimateMarketCap, netTradersOf, calculateHolderDistribution,
      isBurnAddress_holder1, isProgramAccount_holder1, List.filter_cons, List.filter_nil,
      List.map_cons, List.map_nil, defaultFilterConfig, samplePair, sampleNow,
      passingRug, passingHolders]
    all_goals decide
  have hfail : filterToken defaultFilterConfig 90000000 samplePair passingRug =
      failResult "age_max" := by
    norm_num [filterToken, stageChecks, List.find?,
      validationFail, chainFail, ageMaxFail,
      tokenAgeHours, tokenAgeMs, optQ, defaultFilterConfig, samplePair]
    all_goals decide
  intro h
  rw [h, hfail] at hpass
  simp [failResult] at hpass

/-- C6 amended: `filterToken` is a deterministic pure function of the pair,
the risk record, the configuration and the clock reading taken at invocation,
and the clock reading influences the outcome only through the two token-age
stages: whenever the age conditions agree at two clock readings, the entire
outcome agrees. -/
theorem claim6_amended_time_dependence (cfg : FilterConfig) (pair : Pair) (rug : RugData)
    (now1 now2 : ℚ)
    (hmax : ageMaxFail cfg now1 pair = ageMaxFail cfg now2 pair)
    (hmin : ageMinFail cfg now1 pair = ageMinFail cfg now2 pair) :
    filterToken cfg now1 pair rug = filterToken cfg now2 pair rug := by
  simp only [filterToken, stageChecks, hmax, hmin]

/-- C6 amended-claim witness: one minute apart within the age window, the
outcomes coincide. -/
theorem claim6_witness :
    filterToken defaultFilterConfig sampleNow samplePair passingRug =
      filterToken defaultFilterConfig 1660000 samplePair passingRug := by
  apply claim6_amended_time_dependence
  · norm_num [ageMaxFail, tokenAgeHours, tokenAgeMs, optQ, defaultFilterConfig,
      samplePair, sampleNow]
  · norm_num [ageMinFail, tokenAgeMinutes, tokenAgeMs, optQ, defaultFilterConfig,
      samplePair, sampleNow]

/-! ## Claim C10 -/

/-- C10: a risk record whose holders data is absent or lacks a `top` field —
in particular the degraded default — yields holder count `0` and top
percentage `100`; under any configuration with `minHolders ≥ 1` such a pair
never passes the filter, is never persisted by the ingestion step, and, when
every stage before the holder check passes, is failed exactly at
`holders_min`. -/
theorem claim10_degraded_holders_never_saved {ε : Type} (cfg : FilterConfig) (now : ℚ)
    (pair : Pair) (rug : RugData)
    (hdeg : rug.holders = none ∨ ∃ hd, rug.holders = some hd ∧ hd.top = none)
    (hmin : 1 ≤ cfg.minHolders.getD 0) :
    calculateHolderDistribution rug.holders = ⟨0, 100, none⟩ ∧
    (filterToken cfg now pair rug).passed = false ∧
    (∀ (store : Store) (risk : Except ε RawReport),
        checkSolanaRugScore risk = rug →
        (processPair cfg store now pair risk).2 ≠ PairOutcome.saved ∧
        (processPair cfg store now pair risk).1 = store) ∧
    (validationFail pair = false → chainFail pair = false →
     ageMaxFail cfg now pair = false → ageMinFail cfg now pair = false →
     dexBlockedFail cfg pair = false → dexAllowedFail cfg pair = false →
     volumeMinFail cfg pair = false → volumeMaxFail cfg pair = false →
     liquidityMinFail cfg pair = false → liquidityMaxFail cfg pair = false →
     solLiquidityFail cfg pair = false → priceChangeMaxFail cfg pair = false →
     priceChangeMinFail cfg pair = false →
     filterToken cfg now pair rug = failResult "holders_min") := by
  have hcalc : calculateHolderDistribution rug.holders = ⟨0, 100, none⟩ := by
    rcases hdeg with h | ⟨hd, hh, ht⟩
    · rw [h]
      rfl
    · rw [hh]
      simp [calculateHolderDistribution, ht]
  have hcond : holdersMinFail cfg rug = true := by
    have : (calculateHolderDistribution rug.holders).count = 0 := by rw [hcalc]
    simp only [holdersMinFail, this]
    exact decide_eq_true (lt_of_lt_of_le zero_lt_one hmin)
  have hpassed : (filterToken cfg now pair rug).passed = false := by
    cases hp : (filterToken cfg now pair rug).passed with
    | false => rfl
    | true =>
      exfalso
      have hmem : ("holders_min", holdersMinFail cfg rug) ∈ stageChecks cfg now pair rug := by
        simp [stageChecks]
      have := (filterToken_passed_iff cfg now pair rug).mp hp _ hmem
      simp only at this
      rw [hcond] at this
      exact Bool.noConfusion this
  refine ⟨hcalc, hpassed, ?_, ?_⟩
  · intro store risk hrug
    cases hex : checkExistingToken store now pair.pairAddress with
    | some t => simp [processPair, hex]
    | none => simp [processPair, hex, hrug, hpassed]
  · intro h1 h2 h3 h4 h5 h6 h7 h8 h9 h10 h11 h12 h13
    simp only [filterToken, stageChecks, List.find?, h1, h2, h3, h4, h5, h6, h7, h8, h9,
      h10, h11, h12, h13, hcond]

/-- C10 witness: the sample pair with the degraded-default risk record (whose
`holders` is `{}`) fails under the default configuration; all earlier stages
pass, so the failure is exactly `holders_min`, and the ingestion step with the
failing upstream response leaves any store unchanged. -/
theorem claim10_witness :
    calculateHolderDistribution defaultRiskRecord.holders = ⟨0, 100, none⟩ ∧
    (filterToken defaultFilterConfig sampleNow samplePair defaultRiskRecord).passed
        = false ∧
    (∀ (store : Store) (risk : Except Unit RawReport),
        checkSolanaRugScore risk = defaultRiskRecord →
        (processPair defaultFilterConfig store sampleNow samplePair risk).2 ≠
          PairOutcome.saved ∧
        (processPair defaultFilterConfig store sampleNow samplePair risk).1 = store) ∧
    (validationFail samplePair = false → chainFail samplePair = false →
     ageMaxFail defaultFilterConfig sampleNow samplePair = false →
     ageMinFail defaultFilterConfig sampleNow samplePair = false →
     dexBlockedFail defaultFilterConfig samplePair = false →
     dexAllowedFail defaultFilterConfig samplePair = false →
     volumeMinFail defaultFilterConfig samplePair = false →
     volumeMaxFail defaultFilterConfig samplePair = false →
     liquidityMinFail defaultFilterConfig samplePair = false →
     liquidityMaxFail defaultFilterConfig samplePair = false →
     solLiquidityFail defaultFilterConfig samplePair = false →
     priceChangeMaxFail defaultFilterConfig samplePair = false →
     priceChangeMinFail defaultFilterConfig samplePair = false →
     filterToken defaultFilterConfig sampleNow samplePair defaultRiskRecord =
       failResult "holders_min") :=
  claim10_degraded_holders_never_saved defaultFilterConfig sampleNow samplePair
    defaultRiskRecord
    (Or.inr ⟨emptyHoldersData, rfl, rfl⟩)
    (by norm_num [defaultFilterConfig])

/-! ## Store lemmas -/

/-- Looking up the updated key after `updateFirst` returns the image of the
stored row, provided the update preserves the key. -/
theorem findToken_updateFirst_same (store : Store) (addr : String)
    (f : StoredToken → StoredToken) (hf : ∀ t, (f t).pairAddress = t.pairAddress) :
    findToken (updateFirst addr f store) addr = (findToken store addr).map f := by
  induction store with
  | nil => rfl
  | cons t rest ih =>
    cases h : (t.pairAddress == addr) with
    | true =>
      simp [findToken, updateFirst, List.find?, h, hf]
    | false =>
      simpa [findToken, updateFirst, List.find?, h, hf] using ih

/-- Looking up any other key is unaffected by `updateFirst`. -/
theorem findToken_updateFirst_other (store : Store) (addr b : String)
    (f : StoredToken → StoredToken) (hf : ∀ t, (f t).pairAddress = t.pairAddress)
    (hne : b ≠ addr) :
    findToken (updateFirst addr f store) b = findToken store b := by
  induction store with
  | nil => rfl
  | cons t rest ih =>
    cases h : (t.pairAddress == addr) with
    | true =>
      have ht : t.pairAddress = addr := by simpa using h
      have hb : ((f t).pairAddress == b) = false := by
        simp [hf, ht]
        exact fun hc => hne hc.symm
      have hb2 : (t.pairAddress == b) = false := by
        simp [ht]
        exact fun hc => hne hc.symm
      simp [findToken, updateFirst, List.find?, h, hb, hb2]
    | false =>
      cases hb : (t.pairAddress == b) with
      | true => simp [findToken, updateFirst, List.find?, h, hb]
      | false => simpa [findToken, updateFirst, List.find?, h, hb] using ih

/-! ## Claim C2 -/

/-- C2: `checkSolanaRugScore` never propagates an upstream failure: any error
produces the same well-formed degraded default — conservative mid-range score
`5`, risk tags `["data_unavailable"]`, empty holders object, null authorities
— and the per-pair ingestion step with a failing upstream response completes,
handing exactly this record to `filterToken`. -/
theorem claim2_degraded_risk_default {ε : Type} (e : ε) (cfg : FilterConfig)
    (store : Store) (now : ℚ) (pair : Pair) :
    checkSolanaRugScore (Except.error e) = defaultRiskRecord ∧
    defaultRiskRecord.score = some 5 ∧
    "data_unavailable" ∈ defaultRiskRecord.risks.getD [] ∧
    defaultRiskRecord.holders = some emptyHoldersData ∧
    defaultRiskRecord.freezeAuthority = none ∧
    defaultRiskRecord.mintAuthority = none ∧
    defaultRiskRecord.updateAuthority = none ∧
    (∀ e2 : ε, checkSolanaRugScore (Except.error e2)
        = checkSolanaRugScore (Except.error e)) ∧
    (checkExistingToken store now pair.pairAddress = none →
      processPair cfg store now pair (Except.error e) =
        (if (filterToken cfg now pair defaultRiskRecord).passed then
          (saveSolanaToken store now pair defaultRiskRecord
            (filterToken cfg now pair defaultRiskRecord), PairOutcome.saved)
        else (store, PairOutcome.filtered))) := by
  refine ⟨rfl, rfl, by simp [defaultRiskRecord], rfl, rfl, rfl, rfl, fun e2 => rfl, ?_⟩
  intro hex
  simp only [processPair, hex, checkSolanaRugScore]

/-- C2 witness: instantiated at a concrete error, store, time and pair (the
freshness check misses on the empty store). -/
theorem claim2_witness :
    checkSolanaRugScore (Except.error ()) = defaultRiskRecord ∧
    defaultRiskRecord.score = some 5 ∧
    "data_unavailable" ∈ defaultRiskRecord.risks.getD [] ∧
    defaultRiskRecord.holders = some emptyHoldersData ∧
    defaultRiskRecord.freezeAuthority = none ∧
    defaultRiskRecord.mintAuthority = none ∧
    defaultRiskRecord.updateAuthority = none ∧
    (∀ e2 : Unit, checkSolanaRugScore (Except.error e2)
        = checkSolanaRugScore (Except.error ())) ∧
    (checkExistingToken [] sampleNow samplePair.pairAddress = none →
      processPair defaultFilterConfig [] sampleNow samplePair (Except.error ()) =
        (if (filterToken defaultFilterConfig sampleNow samplePair
              defaultRiskRecord).passed then
          (saveSolanaToken [] sampleNow samplePair defaultRiskRecord
            (filterToken defaultFilterConfig sampleNow samplePair defaultRiskRecord),
           PairOutcome.saved)
        else ([], PairOutcome.filtered))) :=
  claim2_degraded_risk_default () defaultFilterConfig [] sampleNow samplePair

/-! ## Claim C3 -/

/-- C3: with a stored row for the pair whose `updated_at` is `T`, running the
per-pair ingestion step before `T + 1h` skips the pair and leaves the store
untouched (idempotence inside the freshness window); at or after `T + 1h` the
pair is reprocessed (not skipped) and, when the filter passes, the upsert
refreshes `updated_at` to the new cycle time. -/
theorem claim3_freshness_window_idempotent {ε : Type} (cfg : FilterConfig) (store : Store)
    (pair : Pair) (tok : StoredToken) (T now : ℚ) (risk : Except ε RawReport)
    (hfind : findToken store pair.pairAddress = some tok) (hT : tok.updatedAt = T) :
    (now - T < 1000 * 60 * 60 →
        processPair cfg store now pair risk = (store, PairOutcome.skipped)) ∧
    (1000 * 60 * 60 ≤ now - T →
        (processPair cfg store now pair risk).2 ≠ PairOutcome.skipped ∧
        ((filterToken cfg now pair (checkSolanaRugScore risk)).passed = true →
          ∃ tok2,
            findToken (processPair cfg store now pair risk).1 pair.pairAddress
                = some tok2 ∧
            tok2.updatedAt = now ∧ tok2.status = tok.status ∧
            tok2.createdAt = tok.createdAt)) := by
  have hwin : (0:ℚ) < 1000 * 60 * 60 := by norm_num
  constructor
  · intro h
    have hcond : (now - tok.updatedAt) / (1000 * 60 * 60) < 1 := by
      rw [hT, div_lt_one hwin]
      linarith
    simp [processPair, checkExistingToken, hfind, hcond]
  · intro h
    have hcond : ¬ ((now - tok.updatedAt) / (1000 * 60 * 60) < 1) := by
      rw [hT, div_lt_one hwin]
      linarith
    have hex : checkExistingToken store now pair.pairAddress = none := by
      simp [checkExistingToken, hfind, hcond]
    constructor
    · cases hp : (filterToken cfg now pair (checkSolanaRugScore risk)).passed with
      | true => simp [processPair, hex, hp]
      | false => simp [processPair, hex, hp]
    · intro hp
      have hstep : (processPair cfg store now pair risk).1 =
          saveSolanaToken store now pair (checkSolanaRugScore risk)
            (filterToken cfg now pair (checkSolanaRugScore risk)) := by
        simp [processPair, hex, hp]
      have hsave : saveSolanaToken store now pair (checkSolanaRugScore risk)
            (filterToken cfg now pair (checkSolanaRugScore risk)) =
          updateFirst pair.pairAddress
            (upsertUpdate pair (checkSolanaRugScore risk)
              (filterToken cfg now pair (checkSolanaRugScore risk)) now) store := by
        simp [saveSolanaToken, hfind]
      refine ⟨upsertUpdate pair (checkSolanaRugScore risk)
          (filterToken cfg now pair (checkSolanaRugScore risk)) now tok,
        ?_, rfl, rfl, rfl⟩
      rw [hstep, hsave, findToken_updateFirst_same store pair.pairAddress
        (upsertUpdate pair (checkSolanaRugScore risk)
          (filterToken cfg now pair (checkSolanaRugScore risk)) now)
        (fun t => rfl), hfind]
      rfl

/-- Zeroed mutable columns for the sample stored row. -/
def sampleMarket : MarketData :=
  { priceUsd := 0, priceSol := 0, volume24h := 0, volume6h := 0, volume1h := 0,
    volume5m := 0, priceChange24h := 0, priceChange6h := 0, priceChange1h := 0,
    priceChange5m := 0, liquidityUsd := 0, solLiquidity := 0, holdersCount := 0,
    topHolderPercentage := 0, netTraders := 0, rugScore := 0, rugRisks := [],
    freezeAuthority := none, mintAuthority := none, updateAuthority := none,
    isMutable := true }

/-- A stored row for the sample pair, last updated at epoch-ms `1200000`. -/
def sampleStored : StoredToken :=
  { pairAddress := "PAIRADDR", chainId := "solana", dexId := "raydium",
    baseTokenAddress := "BASEADDR", baseTokenName := "Base", baseTokenSymbol := "BASE",
    quoteTokenAddress := "QUOTEADDR", quoteTokenSymbol := "SOL",
    pairCreatedAt := 1000000, market := sampleMarket, status := "active",
    createdAt := 1200000, updatedAt := 1200000 }

/-- C3 witness: the sample store was updated 400 s before `sampleNow`, inside
the freshness window, so the cycle step skips it and leaves the store
unchanged; the stale branch is available at `T + 1h` or later. -/
theorem claim3_witness :
    (sampleNow - 1200000 < 1000 * 60 * 60 →
        processPair defaultFilterConfig [sampleStored] sampleNow samplePair
            (Except.error ()) = ([sampleStored], PairOutcome.skipped)) ∧
    (1000 * 60 * 60 ≤ sampleNow - 1200000 →
        (processPair defaultFilterConfig [sampleStored] sampleNow samplePair
            (Except.error ())).2 ≠ PairOutcome.skipped ∧
        ((filterToken defaultFilterConfig sampleNow samplePair
            (checkSolanaRugScore (Except.error ()))).passed = true →
          ∃ tok2,
            findToken (processPair defaultFilterConfig [sampleStored] sampleNow
                samplePair (Except.error ())).1 samplePair.pairAddress = some tok2 ∧
            tok2.updatedAt = sampleNow ∧ tok2.status = sampleStored.status ∧
            tok2.createdAt = sampleStored.createdAt)) :=
  claim3_freshness_window_idempotent defaultFilterConfig [sampleStored] samplePair
    sampleStored 1200000 sampleNow (Except.error ()) rfl rfl

/-! ## Claim C7 -/

/-- C7: the upsert's update arm touches only the mutable market columns and
`updated_at` — `status`, `created_at` and the identity columns are unchanged;
`created_at` and `status` (`'active'`) are set only by the insert arm; and a
full ingestion step never changes the `status` or `created_at` of any stored
row. -/
theorem claim7_upsert_frame {ε : Type} (cfg : FilterConfig) (store : Store) (now : ℚ)
    (pair : Pair) (rug : RugData) (fr : FilterOutcome) (risk : Except ε RawReport) :
    (∀ old, findToken store pair.pairAddress = some old →
      ∃ t2, findToken (saveSolanaToken store now pair rug fr) pair.pairAddress
            = some t2 ∧
        t2.status = old.status ∧ t2.createdAt = old.createdAt ∧
        t2.updatedAt = now ∧ t2.market = marketValues pair rug fr ∧
        t2.pairAddress = old.pairAddress ∧ t2.chainId = old.chainId ∧
        t2.dexId = old.dexId ∧ t2.pairCreatedAt = old.pairCreatedAt) ∧
    (findToken store pair.pairAddress = none →
      findToken (saveSolanaToken store now pair rug fr) pair.pairAddress =
        some (insertedToken now pair rug fr) ∧
      (insertedToken now pair rug fr).status = "active" ∧
      (insertedToken now pair rug fr).createdAt = now ∧
      (insertedToken now pair rug fr).updatedAt = now) ∧
    (∀ addr t, findToken store addr = some t →
      ∃ t2, findToken (processPair cfg store now pair risk).1 addr = some t2 ∧
        t2.status = t.status ∧ t2.createdAt = t.createdAt) := by
  refine ⟨?_, ?_, ?_⟩
  · intro old hold
    have hsave : saveSolanaToken store now pair rug fr =
        updateFirst pair.pairAddress (upsertUpdate pair rug fr now) store := by
      simp [saveSolanaToken, hold]
    refine ⟨upsertUpdate pair rug fr now old,
      ?_, rfl, rfl, rfl, rfl, rfl, rfl, rfl, rfl⟩
    rw [hsave, findToken_updateFirst_same store pair.pairAddress
      (upsertUpdate pair rug fr now) (fun t => rfl), hold]
    rfl
  · intro hnone
    have hsave : saveSolanaToken store now pair rug fr =
        insertedToken now pair rug fr :: store := by
      simp [saveSolanaToken, hnone]
    refine ⟨?_, rfl, rfl, rfl⟩
    rw [hsave]
    simp [findToken, List.find?, insertedToken]
  · intro addr t ht
    cases hex : checkExistingToken store now pair.pairAddress with
    | some w =>
      exact ⟨t, by simp [processPair, hex, ht], rfl, rfl⟩
    | none =>
      cases hp : (filterToken cfg now pair (checkSolanaRugScore risk)).passed with
      | false =>
        exact ⟨t, by simp [processPair, hex, hp, ht], rfl, rfl⟩
      | true =>
        have hstep : (processPair cfg store now pair risk).1 =
            saveSolanaToken store now pair (checkSolanaRugScore risk)
              (filterToken cfg now pair (checkSolanaRugScore risk)) := by
          simp [processPair, hex, hp]
        by_cases haddr : addr = pair.pairAddress
        · subst haddr
          cases hold : findToken store pair.pairAddress with
          | none => rw [hold] at ht; exact Option.noConfusion ht
          | some w =>
            rw [hold] at ht
            have hw : w = t := Option.some.inj ht
            subst hw
            have hsave : saveSolanaToken store now pair (checkSolanaRugScore risk)
                  (filterToken cfg now pair (checkSolanaRugScore risk)) =
                updateFirst pair.pairAddress
                  (upsertUpdate pair (checkSolanaRugScore risk)
                    (filterToken cfg now pair (checkSolanaRugScore risk)) now) store := by
              simp [saveSolanaToken, hold]
            refine ⟨upsertUpdate pair (checkSolanaRugScore risk)
                (filterToken cfg now pair (checkSolanaRugScore risk)) now w,
              ?_, rfl, rfl⟩
            rw [hstep, hsave, findToken_updateFirst_same store pair.pairAddress
              (upsertUpdate pair (checkSolanaRugScore risk)
                (filterToken cfg now pair (checkSolanaRugScore risk)) now)
              (fun t => rfl), hold]
            rfl
        · cases hold : findToken store pair.pairAddress with
          | some w =>
            have hsave : saveSolanaToken store now pair (checkSolanaRugScore risk)
                  (filterToken cfg now pair (checkSolanaRugScore risk)) =
                updateFirst pair.pairAddress
                  (upsertUpdate pair (checkSolanaRugScore risk)
                    (filterToken cfg now pair (checkSolanaRugScore risk)) now) store := by
              simp [saveSolanaToken, hold]
            refine ⟨t, ?_, rfl, rfl⟩
            rw [hstep, hsave,
              findToken_updateFirst_other store pair.pairAddress addr
                (upsertUpdate pair (checkSolanaRugScore risk)
                  (filterToken cfg now pair (checkSolanaRugScore risk)) now)
                (fun t => rfl) haddr]
            exact ht
          | none =>
            have hsave : saveSolanaToken store now pair (checkSolanaRugScore risk)
                  (filterToken cfg now pair (checkSolanaRugScore risk)) =
                insertedToken now pair (checkSolanaRugScore risk)
                  (filterToken cfg now pair (checkSolanaRugScore risk)) :: store := by
              simp [saveSolanaToken, hold]
            have hne : ((insertedToken now pair (checkSolanaRugScore risk)
                (filterToken cfg now pair (checkSolanaRugScore risk))).pairAddress ==
                  addr) = false := by
              simp [insertedToken]
              exact fun hc => haddr hc.symm
            refine ⟨t, ?_, rfl, rfl⟩
            rw [hstep, hsave]
            simpa [findToken, List.find?, hne] using ht

/-- C7 witness: updating the sample stored row via the upsert preserves its
`status` and `created_at` while refreshing `updated_at` and the market
columns; the full ingestion step preserves them as well. -/
theorem claim7_witness :
    (∀ old, findToken [sampleStored] samplePair.pairAddress = some old →
      ∃ t2, findToken (saveSolanaToken [sampleStored] sampleNow samplePair passingRug
            (passResult samplePair passingRug)) samplePair.pairAddress = some t2 ∧
        t2.status = old.status ∧ t2.createdAt = old.createdAt ∧
        t2.updatedAt = sampleNow ∧
        t2.market = marketValues samplePair passingRug
          (passResult samplePair passingRug) ∧
        t2.pairAddress = old.pairAddress ∧ t2.chainId = old.chainId ∧
        t2.dexId = old.dexId ∧ t2.pairCreatedAt = old.pairCreatedAt) ∧
    (findToken [sampleStored] samplePair.pairAddress = none →
      findToken (saveSolanaToken [sampleStored] sampleNow samplePair passingRug
          (passResult samplePair passingRug)) samplePair.pairAddress =
        some (insertedToken sampleNow samplePair passingRug
          (passResult samplePair passingRug)) ∧
      (insertedToken sampleNow samplePair passingRug
          (passResult samplePair passingRug)).status = "active" ∧
      (insertedToken sampleNow samplePair passingRug
          (passResult samplePair passingRug)).createdAt = sampleNow ∧
      (insertedToken sampleNow samplePair passingRug
          (passResult samplePair passingRug)).updatedAt = sampleNow) ∧
    (∀ addr t, findToken [sampleStored] addr = some t →
      ∃ t2, findToken (processPair defaultFilterConfig [sampleStored] sampleNow
            samplePair (Except.error ())).1 addr = some t2 ∧
        t2.status = t.status ∧ t2.createdAt = t.createdAt) :=
  claim7_upsert_frame defaultFilterConfig [sampleStored] sampleNow samplePair passingRug
    (passResult samplePair passingRug) (Except.error ())

/-! ## Rate-limiter lemmas -/

/-- Lemma: `minTime` returns an element of the list. -/
theorem minTime_mem (ts : List ℚ) (m : ℚ) (h : minTime ts = some m) : m ∈ ts := by
  induction ts generalizing m with
  | nil => exact Option.noConfusion h
  | cons t rest ih =>
    cases hr : minTime rest with
    | none =>
      simp [minTime, hr] at h
      simp [h]
    | some m2 =>
      simp [minTime, hr] at h
      rcases min_choice t m2 with hmin | hmin
      · rw [← h, hmin]
        exact List.mem_cons_self t rest
      · rw [← h, hmin]
        exact List.mem_cons_of_mem t (ih m2 hr)

/-- On a list whose head is a lower bound, `minTime` returns the head. -/
theorem minTime_cons_of_le (t : ℚ) (ts : List ℚ) (h : ∀ x ∈ ts, t ≤ x) :
    minTime (t :: ts) = some t := by
  cases hr : minTime ts with
  | none => simp [minTime, hr]
  | some m =>
    have hm : t ≤ m := h m (minTime_mem ts m hr)
    simp [minTime, hr, min_eq_left hm]

/-- When all recorded and incoming times lie within one window of every later
call, no acquisition prunes anything: the state after a run is the
concatenation of the previous state and the call times. -/
theorem runAcquires_no_prune (lim : RateLimiter) (rest : List ℚ) :
    ∀ pre, (pre ++ rest).Pairwise (fun a b => b - a < lim.interval) →
      runAcquires lim pre rest = pre ++ rest := by
  induction rest with
  | nil => intro pre _; simp [runAcquires]
  | cons n rest2 ih =>
    intro pre h
    obtain ⟨-, -, hcross⟩ := List.pairwise_append.mp h
    have hkeep : pruneTimes lim.interval n pre = pre := by
      apply List.filter_eq_self.mpr
      intro t htmem
      simpa using hcross t htmem n (List.mem_cons_self n rest2)
    have hstep : (acquire lim pre n).2 = pre ++ [n] := by
      simp [acquire, hkeep]
    have hrec : runAcquires lim pre (n :: rest2) =
        runAcquires lim (pre ++ [n]) rest2 := by
      simp [runAcquires, hstep]
    rw [hrec, ih (pre ++ [n]) (by simpa [List.append_assoc] using h)]
    simp

/-! ## Claim C8 -/

/-- C8: `acquire` first discards entries older than the window; with the `N`
acquisition times `t1 :: rest` all recorded, sorted, and within the window of
the next call, the `(N+1)`th acquisition at `now` is delayed exactly
`T − (now − t1)` milliseconds — a positive amount, at least `T` minus the
time elapsed since the first acquisition — and the new acquisition is
recorded after the retained ones. -/
theorem claim8_rate_limiter_delay (lim : RateLimiter) (t1 : ℚ) (rest : List ℚ)
    (now : ℚ)
    (hlen : (t1 :: rest).length = lim.requests)
    (hsorted : (t1 :: rest).Pairwise (fun a b => a ≤ b))
    (hle : ∀ t ∈ t1 :: rest, t ≤ now)
    (hwin : now - t1 < lim.interval) :
    runAcquires lim [] (t1 :: rest) = t1 :: rest ∧
    (acquire lim (t1 :: rest) now).1 = lim.interval - (now - t1) ∧
    0 < lim.interval - (now - t1) ∧
    (acquire lim (t1 :: rest) now).2 = (t1 :: rest) ++ [now] := by
  have hhead : ∀ x ∈ t1 :: rest, t1 ≤ x := by
    intro x hx
    rcases List.mem_cons.mp hx with hx | hx
    · exact le_of_eq hx.symm
    · exact (List.pairwise_cons.mp hsorted).1 x hx
  have hall : ∀ t ∈ t1 :: rest, now - t < lim.interval := by
    intro t ht
    have h1 := hhead t ht
    linarith
  have hprune : pruneTimes lim.interval now (t1 :: rest) = t1 :: rest := by
    apply List.filter_eq_self.mpr
    intro t ht
    simpa using hall t ht
  have hmin : minTime (t1 :: rest) = some t1 :=
    minTime_cons_of_le t1 rest (List.pairwise_cons.mp hsorted).1
  have hreq : lim.requests ≤ (t1 :: rest).length := le_of_eq hlen.symm
  have hpos : 0 < lim.interval - (now - t1) := by linarith
  refine ⟨?_, ?_, hpos, ?_⟩
  · apply runAcquires_no_prune
    simp only [List.nil_append]
    refine List.Pairwise.imp_of_mem ?_ hsorted
    intro a b ha hb hab
    have h1 := hhead a ha
    have h2 := hle b hb
    linarith
  · have hreq2 : lim.requests ≤ rest.length + 1 := by simpa using hreq
    simp [acquire, hprune, hmin, hpos, hreq2]
  · simp [acquire, hprune]

/-- C8 witness: a 2-per-60000 ms limiter with acquisitions recorded at 1000
and 2000; the third acquisition at 30000 ms after the first is delayed
30000 ms. -/
theorem claim8_witness :
    runAcquires ⟨2, 60000⟩ [] [1000, 2000] = [1000, 2000] ∧
    (acquire ⟨2, 60000⟩ [1000, 2000] 31000).1 =
      (⟨2, 60000⟩ : RateLimiter).interval - (31000 - 1000) ∧
    0 < (⟨2, 60000⟩ : RateLimiter).interval - (31000 - 1000) ∧
    (acquire ⟨2, 60000⟩ [1000, 2000] 31000).2 = [1000, 2000] ++ [31000] := by
  apply claim8_rate_limiter_delay
  · rfl
  · norm_num
  · intro t ht
    simp at ht
    rcases ht with h | h <;> norm_num [h]
  · norm_num

/-! ## Retry lemmas -/

/-- The exponential back-off delays slept before attempts
`attempt + 1, …, attempt + n`. -/
def delaysFrom (base : ℚ) (attempt n : Nat) : List ℚ :=
  (List.range n).map (fun i => base * 2 ^ (attempt - 1 + i))

theorem delaysFrom_succ (base : ℚ) (attempt n : Nat) (h : 1 ≤ attempt) :
    delaysFrom base attempt (n + 1) =
      base * 2 ^ (attempt - 1) :: delaysFrom base (attempt + 1) n := by
  simp only [delaysFrom, List.range_succ_eq_map, List.map_cons, List.map_map]
  have hhead : attempt - 1 + 0 = attempt - 1 := by omega
  rw [hhead]
  congr 1
  apply List.map_congr_left
  intro i _
  simp only [Function.comp_apply]
  congr 1
  congr 1
  omega

/-- At least one invocation happens whenever a loop iteration remains. -/
theorem retryAux_calls_pos {ε α : Type} (op : Nat → Except ε α) (base : ℚ)
    (m attempt r : Nat) (hr : 1 ≤ r) :
    1 ≤ (retryAux op base m attempt r).calls := by
  cases r with
  | zero => omega
  | succ r2 =>
    cases hop : op attempt with
    | ok a => simp [retryAux, hop]
    | error e =>
      by_cases h : (attempt == m) = true
      · simp [retryAux, hop, h]
      · have h2 : (attempt == m) = false := by
          simpa using h
        simp [retryAux, hop, h2]

/-- Behaviour of the retry loop from any attempt index: call count is bounded
by the remaining iterations, the slept delays follow the exponential back-off
schedule, a first success at attempt `k` is returned after exactly
`k − attempt + 1` invocations, and if every attempt fails the last failure is
re-raised after all remaining iterations. -/
theorem retryAux_spec {ε α : Type} (op : Nat → Except ε α) (base : ℚ) (m : Nat)
    (rem : Nat) :
    ∀ attempt, attempt + rem = m + 1 → 1 ≤ attempt →
      ((retryAux op base m attempt rem).calls ≤ rem) ∧
      ((retryAux op base m attempt rem).delays =
        delaysFrom base attempt ((retryAux op base m attempt rem).calls - 1)) ∧
      (∀ k a, attempt ≤ k → k ≤ m → op k = Except.ok a →
        (∀ j, attempt ≤ j → j < k → ∃ e, op j = Except.error e) →
        (retryAux op base m attempt rem).result = some (Except.ok a) ∧
        (retryAux op base m attempt rem).calls = k - attempt + 1) ∧
      (1 ≤ rem → (∀ j, attempt ≤ j → j ≤ m → ∃ e, op j = Except.error e) →
        ∀ efin, op m = Except.error efin →
        (retryAux op base m attempt rem).result = some (Except.error efin) ∧
        (retryAux op base m attempt rem).calls = rem) := by
  induction rem with
  | zero =>
    intro attempt hinv hatt
    refine ⟨Nat.le_refl 0, rfl, ?_, ?_⟩
    · intro k a hak hkm hok hfirst
      omega
    · intro h0
      omega
  | succ r ih =>
    intro attempt hinv hatt
    cases hop : op attempt with
    | ok a0 =>
      have hunfold : retryAux op base m attempt (r + 1) = ⟨some (Except.ok a0), 1, []⟩ := by
        simp [retryAux, hop]
      rw [hunfold]
      refine ⟨Nat.le_add_left 1 r, by simp [delaysFrom], ?_, ?_⟩
      · intro k a hak hkm hok hfirst
        have hk : k = attempt := by
          by_contra hne
          have hlt : attempt < k := lt_of_le_of_ne hak (fun h => hne h.symm)
          obtain ⟨e, he⟩ := hfirst attempt (Nat.le_refl attempt) hlt
          rw [hop] at he
          exact Except.noConfusion he
        rw [hk] at hok
        rw [hop] at hok
        have ha := Except.ok.inj hok
        subst ha
        refine ⟨rfl, ?_⟩
        show 1 = k - attempt + 1
        omega
      · intro h1 hallfail efin hefin
        obtain ⟨e, he⟩ := hallfail attempt (Nat.le_refl attempt) (by omega)
        rw [hop] at he
        exact Except.noConfusion he
    | error e0 =>
      by_cases heq : attempt = m
      · have hunfold : retryAux op base m attempt (r + 1) =
            ⟨some (Except.error e0), 1, []⟩ := by
          have hbeq : (attempt == m) = true := by simp [heq]
          simp [retryAux, hop, hbeq]
        rw [hunfold]
        have hr0 : r = 0 := by omega
        refine ⟨Nat.le_add_left 1 r, by simp [delaysFrom], ?_, ?_⟩
        · intro k a hak hkm hok hfirst
          have hk : k = attempt := by omega
          subst hk
          rw [hop] at hok
          exact Except.noConfusion hok
        · intro h1 hallfail efin hefin
          rw [heq, hefin] at hop
          have := Except.error.inj hop
          subst this
          refine ⟨rfl, ?_⟩
          show 1 = r + 1
          omega
      · have hbeq : (attempt == m) = false := by
          simp [heq]
        have hunfold : retryAux op base m attempt (r + 1) =
            ⟨(retryAux op base m (attempt + 1) r).result,
             (retryAux op base m (attempt + 1) r).calls + 1,
             base * 2 ^ (attempt - 1) :: (retryAux op base m (attempt + 1) r).delays⟩ := by
          simp [retryAux, hop, hbeq]
        have hr1 : 1 ≤ r := by omega
        obtain ⟨ihc, ihd, ihs, ihf⟩ := ih (attempt + 1) (by omega) (by omega)
        rw [hunfold]
        refine ⟨by simpa using Nat.add_le_add_right ihc 1, ?_, ?_, ?_⟩
        · simp only
          have hc := retryAux_calls_pos op base m (attempt + 1) r hr1
          rw [ihd]
          have hc1 : (retryAux op base m (attempt + 1) r).calls + 1 - 1 =
              ((retryAux op base m (attempt + 1) r).calls - 1) + 1 := by
            omega
          rw [hc1, delaysFrom_succ base attempt _ hatt]
        · intro k a hak hkm hok hfirst
          have hne : k ≠ attempt := by
            intro hk
            rw [hk, hop] at hok
            exact Except.noConfusion hok
          have hak2 : attempt + 1 ≤ k := by omega
          obtain ⟨hres, hcalls⟩ := ihs k a hak2 hkm hok
            (fun j hj1 hj2 => hfirst j (by omega) hj2)
          refine ⟨hres, ?_⟩
          simp only
          omega
        · intro h1 hallfail efin hefin
          obtain ⟨hres, hcalls⟩ := ihf hr1
            (fun j hj1 hj2 => hallfail j (by omega) hj2) efin hefin
          exact ⟨hres, by simp only; omega⟩

/-! ## Claim C9 -/

/-- C9: for `maxAttempts ≥ 1`, `retryRequest` invokes the operation at most
`maxAttempts` times; it returns the result of the first successful invocation
and makes no further attempts; it sleeps `baseDelay · 2^(attempt−1)` between
consecutive attempts; and when every attempt fails it re-raises the failure
of the last attempt after exactly `maxAttempts` invocations. -/
theorem claim9_retry_spec {ε α : Type} (op : Nat → Except ε α) (base : ℚ) (m : Nat)
    (hm : 1 ≤ m) :
    ((retryRequest op base m).calls ≤ m) ∧
    ((retryRequest op base m).delays =
      (List.range ((retryRequest op base m).calls - 1)).map (fun i => base * 2 ^ i)) ∧
    (∀ k a, 1 ≤ k → k ≤ m → op k = Except.ok a →
      (∀ j, 1 ≤ j → j < k → ∃ e, op j = Except.error e) →
      (retryRequest op base m).result = some (Except.ok a) ∧
      (retryRequest op base m).calls = k) ∧
    ((∀ j, 1 ≤ j → j ≤ m → ∃ e, op j = Except.error e) →
      ∀ efin, op m = Except.error efin →
      (retryRequest op base m).result = some (Except.error efin) ∧
      (retryRequest op base m).calls = m) := by
  have hreq : retryRequest op base m = retryAux op base m 1 m := rfl
  obtain ⟨hc, hd, hs, hf⟩ := retryAux_spec op base m m 1 (by omega) (Nat.le_refl 1)
  refine ⟨hc, ?_, ?_, ?_⟩
  · rw [hreq, hd]
    simp [delaysFrom]
  · intro k a hk1 hkm hok hfirst
    obtain ⟨hres, hcalls⟩ := hs k a hk1 hkm hok hfirst
    rw [hreq]
    refine ⟨hres, ?_⟩
    omega
  · intro hallfail efin hefin
    exact hf hm hallfail efin hefin

/-- A sample operation: fails on the first attempt, succeeds on the second. -/
def retryOpSample : Nat → Except Unit Nat :=
  fun k => if k == 2 then Except.ok 42 else Except.error ()

/-- C9 witness: with three allowed attempts and a first success on attempt 2,
the combinator returns that success after exactly two invocations, having
slept exactly the single base delay, within the three-attempt bound. -/
theorem claim9_witness :
    (retryRequest retryOpSample 1000 3).calls ≤ 3 ∧
    (retryRequest retryOpSample 1000 3).result = some (Except.ok 42) ∧
    (retryRequest retryOpSample 1000 3).calls = 2 := by
  have h := claim9_retry_spec retryOpSample 1000 3 (by norm_num)
  refine ⟨h.1, ?_⟩
  exact h.2.2.1 2 42 (by norm_num) (by norm_num) rfl
    (fun j hj1 hj2 => by
      have hj : j = 1 := by omega
      subst hj
      exact ⟨(), rfl⟩)

end TokenMonitor
